import Mathlib

/-!
Verification of the smartnote canvas editing core (src/app/renderer/Editor.tsx,
the full-featured Editor component) against its natural-language specification.

Modelling conventions:
- JavaScript numbers are modelled by the rationals. All arithmetic appearing
  in the modelled code paths (+, -, *, /, min, max, abs, floor, ceil) is exact
  on the rationals. The two places where the source takes a square root
  (Math.sqrt in pointNearSegment, Math.hypot in the drag threshold) only ever
  compare the root against a nonnegative constant, so they are modelled by
  comparing the squared quantity against the squared constant, which is
  equivalent for real numbers.
- JS arrays used as stacks (undoStack, redoStack) push and pop at the end and
  shift (evict) at the front. They are modelled as Lean lists with the stack
  top at the HEAD: push is cons, pop takes the head, and evicting the oldest
  entry is dropping the LAST element (List.take of the capacity).
- The optional capture timestamp t on stroke points (set to Date.now()) is
  never read by any modelled operation and is omitted.
- React state setters and their mirror refs (items and itemsRef, offset and
  offsetRef, scale and scaleRef) always hold the same value at the operation
  boundaries modelled here, so each pair is modelled as a single field.
-/

/-- A stroke point in world coordinates (src StrokePoint, timestamp omitted). -/
structure StrokePoint where
  x : ℚ
  y : ℚ
deriving DecidableEq, Repr

/-- A freehand polyline (src Stroke). -/
structure Stroke where
  points : List StrokePoint
  color : String
  width : ℚ
deriving DecidableEq, Repr

/-- Text alignment (src 'left' | 'center' | 'right'). -/
inductive Align where
  | left
  | center
  | right
deriving DecidableEq, Repr

/-- A text box (src TextBox). -/
structure TextBox where
  id : String
  x : ℚ
  y : ℚ
  w : ℚ
  h : ℚ
  text : String
  font : String
  color : String
  align : Align
deriving DecidableEq, Repr

/-- A scene item (src CanvasItem = Stroke | TextBox, tagged by kind). -/
inductive CanvasItem where
  | stroke (s : Stroke)
  | text (tb : TextBox)
deriving DecidableEq, Repr

/-- The active tool (src Tool). -/
inductive Tool where
  | pen
  | select
  | erase
  | text
deriving DecidableEq, Repr

/-- An axis-aligned rectangle with origin and extent, as used for the
selection marquee and stroke bounds ({x, y, w, h} objects in the source). -/
structure Rect where
  x : ℚ
  y : ℚ
  w : ℚ
  h : ℚ
deriving DecidableEq, Repr

/-- The editor session state: the scene, history stacks, selection and
marquee state, pointer flags, viewport transform, and pen settings.
Collects the React state and refs of the Editor component. -/
structure EditorState where
  items : List CanvasItem
  undoStack : List (List CanvasItem)
  redoStack : List (List CanvasItem)
  selectedIdx : List Nat
  tool : Tool
  drawing : Option Stroke
  selectionStart : Option (ℚ × ℚ)
  selectionDragging : Bool
  selectionRect : Option Rect
  pointerDown : Bool
  panning : Bool
  panStart : Option (ℚ × ℚ)
  panOrigin : Option (ℚ × ℚ)
  offset : ℚ × ℚ
  scale : ℚ
  editingTextIdx : Option Nat
  penColor : String
  penWidth : ℚ
deriving DecidableEq, Repr

/-- The initial editor state (the useState and useRef initialisers). -/
def initState : EditorState :=
  { items := []
    undoStack := []
    redoStack := []
    selectedIdx := []
    tool := Tool.pen
    drawing := none
    selectionStart := none
    selectionDragging := false
    selectionRect := none
    pointerDown := false
    panning := false
    panStart := none
    panOrigin := none
    offset := (0, 0)
    scale := 1
    editingTextIdx := none
    penColor := "#222"
    penWidth := 2 }

/-- History capacity (src HISTORY_LIMIT). -/
def HISTORY_LIMIT : Nat := 10

/-- src snapshotClone: per-item copy (text boxes by field spread, strokes
with a copied point array). On immutable values this is a deep copy that is
equal to its argument; it is kept as a definition to mirror the source. -/
def snapshotClone (snapshot : List CanvasItem) : List CanvasItem :=
  snapshot.map fun it =>
    match it with
    | CanvasItem.text tb =>
        CanvasItem.text
          { id := tb.id, x := tb.x, y := tb.y, w := tb.w, h := tb.h,
            text := tb.text, font := tb.font, color := tb.color, align := tb.align }
    | CanvasItem.stroke s =>
        CanvasItem.stroke { points := s.points, color := s.color, width := s.width }

/-- src pushHistory: clone and push onto the undo stack, evict the oldest
entry past HISTORY_LIMIT (array shift, here: keep the first HISTORY_LIMIT
entries since the top is the list head), clear the redo stack. -/
def pushHistory (snapshot : List CanvasItem) (st : EditorState) : EditorState :=
  { st with
    undoStack := (snapshotClone snapshot :: st.undoStack).take HISTORY_LIMIT
    redoStack := [] }

/-- src undo: no-op on an empty undo stack; otherwise pop the top, push a
clone of the current items onto redo, replace the live items with a clone of
the popped snapshot, clear the selection. -/
def undo (st : EditorState) : EditorState :=
  match st.undoStack with
  | [] => st
  | top :: rest =>
      { st with
        undoStack := rest
        redoStack := snapshotClone st.items :: st.redoStack
        items := snapshotClone top
        selectedIdx := [] }

/-- src redo: no-op on an empty redo stack; otherwise pop the top, push a
clone of the current items onto undo (directly, without the capacity check
of pushHistory), replace the live items, clear the selection. -/
def redo (st : EditorState) : EditorState :=
  match st.redoStack with
  | [] => st
  | top :: rest =>
      { st with
        redoStack := rest
        undoStack := snapshotClone st.items :: st.undoStack
        items := snapshotClone top
        selectedIdx := [] }

/-- src finalizeStroke: when the tool is pen and a stroke is in progress,
push the pre-commit items onto history, append a copy of the in-progress
stroke to the scene, and clear the in-progress reference; otherwise no-op. -/
def finalizeStroke (st : EditorState) : EditorState :=
  if st.tool = Tool.pen then
    match st.drawing with
    | some s =>
        let saved : Stroke := { points := s.points, color := s.color, width := s.width }
        let next := st.items ++ [CanvasItem.stroke saved]
        let st1 := pushHistory st.items st
        { st1 with items := next, drawing := none }
    | none => st
  else st

/-- One pen-stroke commit: an in-progress stroke s (built up by the pen
pointer-down and pointer-move handlers) being committed by finalizeStroke on
pointer-up. -/
def commitStroke (s : Stroke) (st : EditorState) : EditorState :=
  finalizeStroke { st with drawing := some s }

/-- Commit a list of pen strokes in order. -/
def commitStrokes (ss : List Stroke) (st : EditorState) : EditorState :=
  ss.foldl (fun acc s => commitStroke s acc) st

/-- The abstract history operations of the claim C4: a history push of a
given scene snapshot, an undo, or a redo. -/
inductive HistOp where
  | push (snapshot : List CanvasItem)
  | undo
  | redo
deriving DecidableEq, Repr

/-- Apply one history operation. -/
def applyHistOp (st : EditorState) : HistOp → EditorState
  | HistOp.push snapshot => pushHistory snapshot st
  | HistOp.undo => undo st
  | HistOp.redo => redo st

/-- Apply a sequence of history operations, first operation first. -/
def applyHistOps (ops : List HistOp) (st : EditorState) : EditorState :=
  ops.foldl applyHistOp st

-- ## Geometry helpers (src pointNearSegment, strokeBounds)

/-- src pointNearSegment, squared: the source projects (px, py) onto the
segment (x1, y1)-(x2, y2), clamping the projection parameter to [0, 1]
(param is set to -1 when the segment is degenerate), and returns
Math.sqrt(dx*dx + dy*dy). Every use site compares that root against a
nonnegative constant c, which is equivalent to comparing this squared
distance against c*c, so the model returns the square and the use sites
compare against the squared constant. -/
def pointSegDistSq (px py x1 y1 x2 y2 : ℚ) : ℚ :=
  let A := px - x1
  let B := py - y1
  let C := x2 - x1
  let D := y2 - y1
  let dot := A * C + B * D
  let lenSq := C * C + D * D
  let param := if lenSq ≠ 0 then dot / lenSq else -1
  let xx := if param < 0 then x1 else if param > 1 then x2 else x1 + param * C
  let yy := if param < 0 then y1 else if param > 1 then y2 else y1 + param * D
  (px - xx) * (px - xx) + (py - yy) * (py - yy)

/-- The consecutive point pairs of a stroke: the source loops i from 1 to
points.length - 1 over the pairs (points[i-1], points[i]). -/
def consecPairs (l : List StrokePoint) : List (StrokePoint × StrokePoint) :=
  l.zip l.tail

/-- Stroke segment scan: some consecutive segment of the point list lies
within distance thr of (x, y) (the source loop with dist <= thr). -/
def strokeNear (x y thr : ℚ) (ps : List StrokePoint) : Bool :=
  (consecPairs ps).any fun pq =>
    decide (pointSegDistSq x y pq.1.x pq.1.y pq.2.x pq.2.y ≤ thr * thr)

/-- The filter callback of src eraseAtPoint: true to KEEP the item. A text
box is dropped when its rectangle contains the point; a stroke is dropped
when some consecutive segment is within the threshold 8 of the point. -/
def eraseKeep (x y : ℚ) (it : CanvasItem) : Bool :=
  match it with
  | CanvasItem.text tb =>
      !(decide (x ≥ tb.x) && decide (x ≤ tb.x + tb.w) &&
        decide (y ≥ tb.y) && decide (y ≤ tb.y + tb.h))
  | CanvasItem.stroke s => !(strokeNear x y 8 s.points)

/-- src eraseAtPoint: filter the items in one pass; when the count changed,
push one history snapshot of the prior scene and replace the scene, else
leave the state untouched. -/
def eraseAtPoint (x y : ℚ) (st : EditorState) : EditorState :=
  let before := st.items
  let next := before.filter (eraseKeep x y)
  if next.length ≠ before.length then
    let st1 := pushHistory before st
    { st1 with items := next }
  else st

/-- src strokeBounds: min/max fold over the stroke points. The source folds
from Infinity and -Infinity; a stroke with no points yields a non-finite box
whose comparisons all fail (NaN width), so no marquee ever selects it -- here
the empty case is none and the selection test treats none as not selected. -/
def strokeBounds (st : Stroke) : Option Rect :=
  match st.points with
  | [] => none
  | p :: ps =>
      let acc := ps.foldl
        (fun (a : ℚ × ℚ × ℚ × ℚ) q =>
          (min a.1 q.x, min a.2.1 q.y, max a.2.2.1 q.x, max a.2.2.2 q.y))
        (p.x, p.y, p.x, p.y)
      some { x := acc.1, y := acc.2.1, w := acc.2.2.1 - acc.1, h := acc.2.2.2 - acc.2.1 }

-- ## Selection tests (marquee and click)

/-- The live selection test of the select branch of src onCanvasPointerMove:
a text box is selected when fully contained in the marquee rectangle, a
stroke when its bounding box touches or overlaps it. -/
def marqueeSelects (rx ry rw rh : ℚ) (it : CanvasItem) : Bool :=
  match it with
  | CanvasItem.text tb =>
      decide (tb.x ≥ rx) && decide (tb.y ≥ ry) &&
      decide (tb.x + tb.w ≤ rx + rw) && decide (tb.y + tb.h ≤ ry + rh)
  | CanvasItem.stroke s =>
      match strokeBounds s with
      | none => false
      | some b =>
          decide (b.x + b.w ≥ rx) && decide (b.x ≤ rx + rw) &&
          decide (b.y + b.h ≥ ry) && decide (b.y ≤ ry + rh)

/-- The marquee finalize test of the select branch of src onCanvasPointerUp
(a second, textually duplicated copy of the same containment/intersection
test, translated from its own code site). -/
def marqueeSelectsFinal (r : Rect) (it : CanvasItem) : Bool :=
  match it with
  | CanvasItem.text tb =>
      decide (tb.x ≥ r.x) && decide (tb.y ≥ r.y) &&
      decide (tb.x + tb.w ≤ r.x + r.w) && decide (tb.y + tb.h ≤ r.y + r.h)
  | CanvasItem.stroke s =>
      match strokeBounds s with
      | none => false
      | some b =>
          decide (b.x + b.w ≥ r.x) && decide (b.x ≤ r.x + r.w) &&
          decide (b.y + b.h ≥ r.y) && decide (b.y ≤ r.y + r.h)

/-- Indices selected by the marquee (the forEach accumulation over the item
list, item index order preserved). -/
def selectedIndices (rx ry rw rh : ℚ) (items : List CanvasItem) : List Nat :=
  (items.enum.filter fun pair => marqueeSelects rx ry rw rh pair.2).map Prod.fst

/-- The click hit test of one item in src onCanvasPointerUp: point in
rectangle for a text box; some consecutive segment within distance 8 for a
stroke. -/
def clickHitItem (x y : ℚ) (it : CanvasItem) : Bool :=
  match it with
  | CanvasItem.text tb =>
      decide (x ≥ tb.x) && decide (x ≤ tb.x + tb.w) &&
      decide (y ≥ tb.y) && decide (y ≤ tb.y + tb.h)
  | CanvasItem.stroke s => strokeNear x y 8 s.points

/-- The click-select of src onCanvasPointerUp: iterate items from topmost
(last index) to bottommost, stop at the first hit; at most one index. -/
def clickHitTest (x y : ℚ) (items : List CanvasItem) : List Nat :=
  match items.enum.reverse.find? (fun pair => clickHitItem x y pair.2) with
  | some pair => [pair.1]
  | none => []

-- ## Spec-side predicates (stated from the words of the specification)

/-- Spec wording for C5: a text box qualifies for erase when its rectangle
contains the point; a stroke qualifies when some segment of consecutive
points is within 8 world units of the point (squared form, see
pointSegDistSq). -/
def specEraseRemoves (x y : ℚ) : CanvasItem → Prop
  | CanvasItem.text tb => tb.x ≤ x ∧ x ≤ tb.x + tb.w ∧ tb.y ≤ y ∧ y ≤ tb.y + tb.h
  | CanvasItem.stroke s =>
      ∃ pq ∈ consecPairs s.points, pointSegDistSq x y pq.1.x pq.1.y pq.2.x pq.2.y ≤ 64

/-- Spec wording for C6, text case: the box is fully contained in the
marquee rectangle. -/
def specBoxContained (r : Rect) (tb : TextBox) : Prop :=
  tb.x ≥ r.x ∧ tb.y ≥ r.y ∧ tb.x + tb.w ≤ r.x + r.w ∧ tb.y + tb.h ≤ r.y + r.h

/-- Spec wording for C6, stroke case: the bounding boxes overlap, touching
edges included (the boundsOverlap comparisons of the spec). -/
def specBoundsOverlap (b r : Rect) : Prop :=
  b.x + b.w ≥ r.x ∧ b.x ≤ r.x + r.w ∧ b.y + b.h ≥ r.y ∧ b.y ≤ r.y + r.h

-- ## Viewport transform and pointer-move handler

/-- src toCanvasPoint: convert css-pixel canvas coordinates to world
coordinates by undoing the current pan/zoom (the canvas bounding rectangle
is taken at the origin, so client and css coordinates coincide). -/
def toCanvasPoint (st : EditorState) (cssX cssY : ℚ) : ℚ × ℚ :=
  ((cssX - st.offset.1) / st.scale, (cssY - st.offset.2) / st.scale)

/-- src onCanvasPointerMove: pan with the right button, else ignore hovers,
else append to the in-progress pen stroke, else update the select marquee.
In the select branch the source computes the rectangle from the anchor, sets
the visible rectangle and the dragging flag only when the world-space
displacement exceeds 4 (the root computed by Math.hypot compared against 4,
stated here on the squares), and then recomputes the live selection from
the rectangle unconditionally. -/
def onPointerMove (cssX cssY : ℚ) (st : EditorState) : EditorState :=
  if st.panning then
    match st.panStart, st.panOrigin with
    | some ps, some po =>
        { st with offset := (po.1 + (cssX - ps.1), po.2 + (cssY - ps.2)) }
    | _, _ => st
  else if !st.pointerDown then st
  else
    let p := toCanvasPoint st cssX cssY
    if st.tool = Tool.pen then
      match st.drawing with
      | some s =>
          { st with drawing := some { s with points := s.points ++ [⟨p.1, p.2⟩] } }
      | none => st
    else if st.tool = Tool.select then
      match st.selectionStart with
      | some anchor =>
          let rx := min anchor.1 p.1
          let ry := min anchor.2 p.2
          let rw := |p.1 - anchor.1|
          let rh := |p.2 - anchor.2|
          let movedSq :=
            (p.1 - anchor.1) * (p.1 - anchor.1) + (p.2 - anchor.2) * (p.2 - anchor.2)
          let st1 :=
            if movedSq > 16 then
              { st with selectionDragging := true
                        selectionRect := some { x := rx, y := ry, w := rw, h := rh } }
            else st
          { st1 with selectedIdx := selectedIndices rx ry rw rh st.items }
      | none => st
    else st

/-- The zoom handler (src onWheel, Ctrl/Cmd + wheel): compute the world
point under the cursor, scale by 1.1 (wheel up, deltaY < 0) or 0.9 (wheel
down), clamp to [0.1, 4], and recompute the offset so the world point stays
under the cursor. -/
def onWheelZoom (cx cy deltaY : ℚ) (st : EditorState) : EditorState :=
  let worldX := (cx - st.offset.1) / st.scale
  let worldY := (cy - st.offset.2) / st.scale
  let delta := -deltaY
  let zoomFactor : ℚ := if delta > 0 then 11 / 10 else 9 / 10
  let nextScale := max (1 / 10) (min 4 (st.scale * zoomFactor))
  { st with
    scale := nextScale
    offset := (cx - worldX * nextScale, cy - worldY * nextScale) }

/-- src setTool plus the tool-change effect: switching away from the select
tool clears the selection, the marquee rectangle and the marquee anchor.
No other state is touched by a tool switch. -/
def setTool (t : Tool) (st : EditorState) : EditorState :=
  let st1 := { st with tool := t }
  if t ≠ Tool.select then
    { st1 with selectedIdx := [], selectionRect := none, selectionStart := none }
  else st1

-- ## Export bounds (src computeContentBounds)

/-- An integer crop rectangle as returned by src computeContentBounds. -/
structure IRect where
  x : ℤ
  y : ℤ
  w : ℤ
  h : ℤ
deriving DecidableEq, Repr

/-- One accumulation step of the bounds fold: extend the running
(minX, minY, maxX, maxY) with an x-range [x0, x1] and a y-range [y0, y1].
The source initialises the accumulator to (Infinity, Infinity, -Infinity,
-Infinity); the not-yet-touched accumulator is modelled as none, and the
first contribution replaces it, exactly as min/max against the infinities
would. -/
def updateBounds (acc : Option (ℚ × ℚ × ℚ × ℚ)) (x0 y0 x1 y1 : ℚ) :
    Option (ℚ × ℚ × ℚ × ℚ) :=
  match acc with
  | none => some (x0, y0, x1, y1)
  | some a => some (min a.1 x0, min a.2.1 y0, max a.2.2.1 x1, max a.2.2.2 y1)

/-- The per-item step of the bounds fold of src computeContentBounds: every
point of a stroke contributes its coordinates (strokes without points are
skipped by the continue), a text box contributes its rectangle. -/
def itemBoundsFold (acc : Option (ℚ × ℚ × ℚ × ℚ)) (it : CanvasItem) :
    Option (ℚ × ℚ × ℚ × ℚ) :=
  match it with
  | CanvasItem.stroke s =>
      if s.points = [] then acc
      else s.points.foldl (fun a p => updateBounds a p.x p.y p.x p.y) acc
  | CanvasItem.text tb => updateBounds acc tb.x tb.y (tb.x + tb.w) (tb.y + tb.h)

/-- src computeContentBounds: fold min/max bounds over all items; if no
finite bounds were found return the fixed fallback (0, 0, 600, 400);
otherwise expand by the margin 24, with x and y the floor of min - margin
and w and h the ceiling of the expanded extent, clamped below by 1. -/
def computeContentBounds (items : List CanvasItem) : IRect :=
  match items.foldl itemBoundsFold none with
  | none => { x := 0, y := 0, w := 600, h := 400 }
  | some a =>
      let margin : ℚ := 24
      let x := ⌊a.1 - margin⌋
      let y := ⌊a.2.1 - margin⌋
      let w := ⌈a.2.2.1 - a.1 + margin * 2⌉
      let h := ⌈a.2.2.2 - a.2.1 + margin * 2⌉
      { x := x, y := y, w := max 1 w, h := max 1 h }

/-- The contributors of the bounds fold, flattened: for each stroke every
point as a degenerate range, for each text box its rectangle as a range
(x0, y0, x1, y1). Used to state coverage of the crop rectangle. -/
def boundsContribs (items : List CanvasItem) : List (ℚ × ℚ × ℚ × ℚ) :=
  items.flatMap fun it =>
    match it with
    | CanvasItem.stroke s => s.points.map fun p => (p.x, p.y, p.x, p.y)
    | CanvasItem.text tb => [(tb.x, tb.y, tb.x + tb.w, tb.y + tb.h)]

/-- The bounds fold restated over one flattened contributor. -/
def contribStep (a : Option (ℚ × ℚ × ℚ × ℚ)) (c : ℚ × ℚ × ℚ × ℚ) :
    Option (ℚ × ℚ × ℚ × ℚ) :=
  updateBounds a c.1 c.2.1 c.2.2.1 c.2.2.2

-- ## Basic lemmas about cloning and history

theorem snapshotClone_eq (l : List CanvasItem) : snapshotClone l = l := by
  induction l with
  | nil => rfl
  | cons a l ih =>
      cases a <;> simp [snapshotClone] at ih ⊢ <;> exact ih

theorem commitStroke_fields (s : Stroke) (st : EditorState) (htool : st.tool = Tool.pen) :
    commitStroke s st =
      { st with
        items := st.items ++ [CanvasItem.stroke s]
        undoStack := (st.items :: st.undoStack).take HISTORY_LIMIT
        redoStack := []
        drawing := none } := by
  simp [commitStroke, finalizeStroke, htool, pushHistory, snapshotClone_eq]

theorem commitStrokes_then_undos (ss : List Stroke) (st : EditorState)
    (htool : st.tool = Tool.pen)
    (hlen : st.undoStack.length + ss.length ≤ HISTORY_LIMIT) :
    (undo^[ss.length] (commitStrokes ss st)).items = st.items ∧
    (undo^[ss.length] (commitStrokes ss st)).undoStack = st.undoStack := by
  induction ss generalizing st with
  | nil => simp [commitStrokes]
  | cons s ss ih =>
      simp only [List.length_cons] at hlen
      have hstep := commitStroke_fields s st htool
      set st1 := commitStroke s st with hst1
      have htool1 : st1.tool = Tool.pen := by rw [hstep]; exact htool
      have hstack1 : st1.undoStack = st.items :: st.undoStack := by
        rw [hstep]
        simp only []
        exact List.take_of_length_le (by simp only [List.length_cons]; omega)
      have hlen1 : st1.undoStack.length + ss.length ≤ HISTORY_LIMIT := by
        rw [hstack1]
        simp only [List.length_cons]
        omega
      have hcs : commitStrokes (s :: ss) st = commitStrokes ss st1 := by
        simp [commitStrokes]
      have ihs := ih st1 htool1 hlen1
      rw [hcs]
      have hit : (s :: ss).length = ss.length + 1 := rfl
      rw [hit, Function.iterate_succ_apply']
      obtain ⟨ih1, ih2⟩ := ihs
      rw [hstack1] at ih2
      constructor
      · simp [undo, ih2, snapshotClone_eq]
      · simp [undo, ih2, snapshotClone_eq]

/-- C2: for every editor state with a non-empty undo stack, undo followed by
redo with no intervening mutation restores the live item list: the scene
after redo equals the scene before the undo. -/
theorem undo_then_redo_restores_items (st : EditorState) (h : st.undoStack ≠ []) :
    (redo (undo st)).items = st.items := by
  cases hu : st.undoStack with
  | nil => exact absurd hu h
  | cons top rest => simp [undo, hu, redo, snapshotClone_eq]

/-- Witness for C2 at a concrete state: one item in the scene, one snapshot
(the empty scene) on the undo stack. -/
theorem undo_then_redo_restores_items_witness :
    ({ initState with
        items := [CanvasItem.stroke { points := [⟨0, 0⟩, ⟨1, 1⟩], color := "#222", width := 2 }]
        undoStack := [[]] } : EditorState).undoStack ≠ [] ∧
    (redo (undo
      { initState with
        items := [CanvasItem.stroke { points := [⟨0, 0⟩, ⟨1, 1⟩], color := "#222", width := 2 }]
        undoStack := [[]] })).items =
      [CanvasItem.stroke { points := [⟨0, 0⟩, ⟨1, 1⟩], color := "#222", width := 2 }] :=
  ⟨by simp, undo_then_redo_restores_items _ (by simp)⟩

/-- C3: starting from the empty initial scene, committing N pen strokes
(each commit pushing the prior snapshot onto the undo stack, as the second
conjunct states) and then performing N undo operations returns the scene to
empty, provided N is at most the history capacity 10. -/
theorem pen_strokes_then_undos_empty (ss : List Stroke) (hcap : ss.length ≤ HISTORY_LIMIT) :
    (undo^[ss.length] (commitStrokes ss initState)).items = [] ∧
    (∀ (s : Stroke) (st : EditorState), st.tool = Tool.pen →
        (commitStroke s st).undoStack = (st.items :: st.undoStack).take HISTORY_LIMIT) := by
  constructor
  · have h := commitStrokes_then_undos ss initState rfl (by simpa [initState] using hcap)
    simpa [initState] using h.1
  · intro s st htool
    rw [commitStroke_fields s st htool]

/-- Witness for C3 at two concrete strokes committed and undone. -/
theorem pen_strokes_then_undos_empty_witness :
    ([⟨[⟨0, 0⟩, ⟨1, 0⟩], "#222", 2⟩, ⟨[⟨5, 5⟩], "#222", 2⟩] : List Stroke).length ≤ HISTORY_LIMIT ∧
    ((undo^[([⟨[⟨0, 0⟩, ⟨1, 0⟩], "#222", 2⟩, ⟨[⟨5, 5⟩], "#222", 2⟩] : List Stroke).length]
        (commitStrokes [⟨[⟨0, 0⟩, ⟨1, 0⟩], "#222", 2⟩, ⟨[⟨5, 5⟩], "#222", 2⟩] initState)).items = [] ∧
      (∀ (s : Stroke) (st : EditorState), st.tool = Tool.pen →
        (commitStroke s st).undoStack = (st.items :: st.undoStack).take HISTORY_LIMIT)) :=
  ⟨by simp [HISTORY_LIMIT], pen_strokes_then_undos_empty _ (by simp [HISTORY_LIMIT])⟩

theorem applyHistOp_depth_sum (st : EditorState) (op : HistOp)
    (h : st.undoStack.length + st.redoStack.length ≤ HISTORY_LIMIT) :
    (applyHistOp st op).undoStack.length + (applyHistOp st op).redoStack.length ≤
      HISTORY_LIMIT := by
  cases op with
  | push snapshot =>
      simp only [applyHistOp, pushHistory, List.length_nil, Nat.add_zero]
      calc ((snapshotClone snapshot :: st.undoStack).take HISTORY_LIMIT).length
          ≤ HISTORY_LIMIT := by simp [List.length_take]
  | undo =>
      cases hu : st.undoStack with
      | nil => simpa [applyHistOp, undo, hu] using h
      | cons top rest =>
          simp only [applyHistOp, undo, hu, List.length_cons]
          rw [hu] at h
          simp only [List.length_cons] at h
          omega
  | redo =>
      cases hr : st.redoStack with
      | nil => simpa [applyHistOp, redo, hr] using h
      | cons top rest =>
          simp only [applyHistOp, redo, hr, List.length_cons]
          rw [hr] at h
          simp only [List.length_cons] at h
          omega

theorem applyHistOps_depth_sum (ops : List HistOp) (st : EditorState)
    (h : st.undoStack.length + st.redoStack.length ≤ HISTORY_LIMIT) :
    (applyHistOps ops st).undoStack.length + (applyHistOps ops st).redoStack.length ≤
      HISTORY_LIMIT := by
  induction ops generalizing st with
  | nil => simpa [applyHistOps] using h
  | cons op ops ih =>
      have h1 := applyHistOp_depth_sum st op h
      simpa [applyHistOps] using ih (applyHistOp st op) h1

/-- C4: pushHistory clones the snapshot onto the undo stack (the clone equals
the snapshot value), evicts the oldest entry when the stack would exceed the
capacity 10 (here the stack top is the list head, so the oldest entry is the
last), and clears the redo stack; and after every sequence of push/undo/redo
operations from the initial state -- including pushes performed by redo,
which bypass the capacity check -- the undo stack depth never exceeds 10. -/
theorem undo_depth_never_exceeds_capacity (snapshot : List CanvasItem) (st : EditorState)
    (ops : List HistOp) :
    (pushHistory snapshot st).redoStack = [] ∧
    (st.undoStack.length < HISTORY_LIMIT →
      (pushHistory snapshot st).undoStack = snapshot :: st.undoStack) ∧
    (st.undoStack.length = HISTORY_LIMIT →
      (pushHistory snapshot st).undoStack = snapshot :: st.undoStack.dropLast) ∧
    (applyHistOps ops initState).undoStack.length ≤ HISTORY_LIMIT := by
  refine ⟨rfl, ?_, ?_, ?_⟩
  · intro hlt
    simp only [pushHistory, snapshotClone_eq]
    exact List.take_of_length_le (by simp; omega)
  · intro heq
    simp only [pushHistory, snapshotClone_eq, List.dropLast_eq_take, heq]
    show List.take 10 _ = _ :: List.take 9 _
    rw [show (10 : Nat) = 9 + 1 from rfl, List.take_succ_cons]
  · have h := applyHistOps_depth_sum ops initState (by simp [initState])
    omega

/-- Witness for C4: a concrete push below capacity, a push at capacity, and a
concrete operation sequence in which redo pushes onto the undo stack. -/
theorem undo_depth_never_exceeds_capacity_witness :
    (initState.undoStack.length < HISTORY_LIMIT →
      (pushHistory [] initState).undoStack = [] :: initState.undoStack) ∧
    (applyHistOps [HistOp.push [], HistOp.undo, HistOp.redo] initState).undoStack.length ≤
      HISTORY_LIMIT :=
  ⟨(undo_depth_never_exceeds_capacity [] initState
      [HistOp.push [], HistOp.undo, HistOp.redo]).2.1,
   (undo_depth_never_exceeds_capacity [] initState
      [HistOp.push [], HistOp.undo, HistOp.redo]).2.2.2⟩

-- ## Erase and hit-test lemmas

theorem eraseAtPoint_items_eq (x y : ℚ) (st : EditorState) :
    (eraseAtPoint x y st).items = st.items.filter (eraseKeep x y) := by
  by_cases h : (st.items.filter (eraseKeep x y)).length = st.items.length
  · have heq : st.items.filter (eraseKeep x y) = st.items :=
      (List.filter_sublist _).eq_of_length h
    simp [eraseAtPoint, h, heq]
  · simp [eraseAtPoint, h]

theorem consecPairs_eq_nil (l : List StrokePoint) (h : l.length < 2) :
    consecPairs l = [] := by
  cases l with
  | nil => rfl
  | cons a t =>
      cases t with
      | nil => rfl
      | cons b t2 => simp at h; omega

/-- C5: eraseAtPoint removes exactly the text boxes whose rectangle contains
the point and the strokes having some segment within 8 world units of it, in
a single filter pass; when at least one item is removed exactly one history
snapshot of the prior scene is pushed and the redo stack is cleared; when no
item qualifies the whole state is unchanged. -/
theorem eraseAtPoint_exact (x y : ℚ) (st : EditorState) :
    ((eraseAtPoint x y st).items = st.items.filter (eraseKeep x y)) ∧
    (∀ it, eraseKeep x y it = false ↔ specEraseRemoves x y it) ∧
    ((∃ it ∈ st.items, eraseKeep x y it = false) →
        (eraseAtPoint x y st).undoStack = (st.items :: st.undoStack).take HISTORY_LIMIT ∧
        (eraseAtPoint x y st).redoStack = []) ∧
    ((∀ it ∈ st.items, eraseKeep x y it = true) → eraseAtPoint x y st = st) := by
  refine ⟨eraseAtPoint_items_eq x y st, ?_, ?_, ?_⟩
  · intro it
    cases it with
    | text tb =>
        simp [eraseKeep, specEraseRemoves, and_assoc]
    | stroke s =>
        simp [eraseKeep, specEraseRemoves, strokeNear]
        norm_num
  · rintro ⟨it, hmem, hrem⟩
    have hlt : (st.items.filter (eraseKeep x y)).length < st.items.length :=
      List.length_filter_lt_length_iff_exists.mpr ⟨it, hmem, by simp [hrem]⟩
    have hne : (st.items.filter (eraseKeep x y)).length ≠ st.items.length :=
      Nat.ne_of_lt hlt
    constructor <;> simp [eraseAtPoint, hne, pushHistory, snapshotClone_eq]
  · intro hall
    have heq : st.items.filter (eraseKeep x y) = st.items := List.filter_eq_self.mpr hall
    simp [eraseAtPoint, heq]

/-- Witness for C5 at a concrete scene: erasing at (0, 0) removes the stroke
through the origin and pushes exactly one snapshot of the prior scene. -/
theorem eraseAtPoint_exact_witness :
    ((CanvasItem.stroke ⟨[⟨0, 0⟩, ⟨10, 0⟩], "#222", 2⟩) ∈
        ({ initState with items := [CanvasItem.stroke ⟨[⟨0, 0⟩, ⟨10, 0⟩], "#222", 2⟩] } :
          EditorState).items ∧
      eraseKeep 0 0 (CanvasItem.stroke ⟨[⟨0, 0⟩, ⟨10, 0⟩], "#222", 2⟩) = false) ∧
    ((eraseAtPoint 0 0
        { initState with
          items := [CanvasItem.stroke ⟨[⟨0, 0⟩, ⟨10, 0⟩], "#222", 2⟩] }).undoStack =
      ([[CanvasItem.stroke ⟨[⟨0, 0⟩, ⟨10, 0⟩], "#222", 2⟩]] :
        List (List CanvasItem)).take HISTORY_LIMIT ∧
     (eraseAtPoint 0 0
        { initState with
          items := [CanvasItem.stroke ⟨[⟨0, 0⟩, ⟨10, 0⟩], "#222", 2⟩] }).redoStack = []) :=
  ⟨⟨by simp, by norm_num [eraseKeep, strokeNear, consecPairs, pointSegDistSq]⟩,
    (eraseAtPoint_exact 0 0
      { initState with
        items := [CanvasItem.stroke ⟨[⟨0, 0⟩, ⟨10, 0⟩], "#222", 2⟩] }).2.2.1
      ⟨CanvasItem.stroke ⟨[⟨0, 0⟩, ⟨10, 0⟩], "#222", 2⟩, by simp,
        by norm_num [eraseKeep, strokeNear, consecPairs, pointSegDistSq]⟩⟩

/-- C6: the marquee selection test applied at finalize equals the live test
applied during the drag; a text box passes it iff fully contained in the
marquee rectangle; a stroke with a bounding box passes it iff that box and
the marquee intersect, touching edges included. -/
theorem marquee_selection_test (r : Rect) (it : CanvasItem) :
    (marqueeSelectsFinal r it = marqueeSelects r.x r.y r.w r.h it) ∧
    (∀ tb, it = CanvasItem.text tb →
        (marqueeSelects r.x r.y r.w r.h it = true ↔ specBoxContained r tb)) ∧
    (∀ s b, it = CanvasItem.stroke s → strokeBounds s = some b →
        (marqueeSelects r.x r.y r.w r.h it = true ↔ specBoundsOverlap b r)) := by
  refine ⟨?_, ?_, ?_⟩
  · cases it with
    | text tb => rfl
    | stroke s => cases hb : strokeBounds s <;> simp [marqueeSelects, marqueeSelectsFinal, hb]
  · rintro tb rfl
    simp [marqueeSelects, specBoxContained, and_assoc]
  · rintro s b rfl hb
    simp [marqueeSelects, hb, specBoundsOverlap, and_assoc]

/-- Witness for C6: a marquee (0, 0, 100, 100) and the text box at
(10, 10, 50, 50) of the specification example, containment discharged. -/
theorem marquee_selection_test_witness :
    marqueeSelects 0 0 100 100
        (CanvasItem.text ⟨"t1", 10, 10, 50, 50, "", "16px system-ui, sans-serif", "#222",
          Align.left⟩) = true ↔
      specBoxContained ⟨0, 0, 100, 100⟩
        ⟨"t1", 10, 10, 50, 50, "", "16px system-ui, sans-serif", "#222", Align.left⟩ :=
  (marquee_selection_test ⟨0, 0, 100, 100⟩
      (CanvasItem.text ⟨"t1", 10, 10, 50, 50, "", "16px system-ui, sans-serif", "#222",
        Align.left⟩)).2.1
    ⟨"t1", 10, 10, 50, 50, "", "16px system-ui, sans-serif", "#222", Align.left⟩ rfl

/-- C10: a stroke with fewer than two points has no consecutive point pair,
so point-erase keeps it and click hit-testing never matches it, for every
query point: it survives every eraseAtPoint and is never the click-selected
index. -/
theorem short_stroke_never_hit (s : Stroke) (x y : ℚ) (h : s.points.length < 2) :
    eraseKeep x y (CanvasItem.stroke s) = true ∧
    clickHitItem x y (CanvasItem.stroke s) = false ∧
    (∀ st : EditorState, CanvasItem.stroke s ∈ st.items →
        CanvasItem.stroke s ∈ (eraseAtPoint x y st).items) ∧
    (∀ (items : List CanvasItem) (i : Nat), i ∈ clickHitTest x y items →
        items[i]? ≠ some (CanvasItem.stroke s)) := by
  have hnear : strokeNear x y 8 s.points = false := by
    simp [strokeNear, consecPairs_eq_nil s.points h]
  have hkeep : eraseKeep x y (CanvasItem.stroke s) = true := by
    simp [eraseKeep, hnear]
  have hclick : clickHitItem x y (CanvasItem.stroke s) = false := by
    simp [clickHitItem, hnear]
  refine ⟨hkeep, hclick, ?_, ?_⟩
  · intro st hmem
    rw [eraseAtPoint_items_eq]
    exact List.mem_filter.mpr ⟨hmem, hkeep⟩
  · intro items i hi hget
    unfold clickHitTest at hi
    cases hf : items.enum.reverse.find? (fun pair => clickHitItem x y pair.2) with
    | none => simp [hf] at hi
    | some pair =>
        rw [hf] at hi
        simp at hi
        subst hi
        have hp : clickHitItem x y pair.2 = true := by
          have hfs := List.find?_some hf
          simpa using hfs
        have hmem : pair ∈ items.enum.reverse := List.mem_of_find?_eq_some hf
        rw [List.mem_reverse] at hmem
        have hpair : items[pair.1]? = some pair.2 := by
          have : (pair.1, pair.2) ∈ items.enum := by simpa using hmem
          exact List.mk_mem_enum_iff_getElem?.mp this
        rw [hget] at hpair
        have : pair.2 = CanvasItem.stroke s := by
          injection hpair with h2
          exact h2.symm
        rw [this, hclick] at hp
        exact Bool.false_ne_true hp

/-- Witness for C10 at a concrete one-point stroke in a one-item scene. -/
theorem short_stroke_never_hit_witness :
    (( ⟨[⟨3, 4⟩], "#222", 2⟩ : Stroke).points.length < 2) ∧
    (eraseKeep 3 4 (CanvasItem.stroke ⟨[⟨3, 4⟩], "#222", 2⟩) = true ∧
     clickHitItem 3 4 (CanvasItem.stroke ⟨[⟨3, 4⟩], "#222", 2⟩) = false ∧
     (∀ st : EditorState, CanvasItem.stroke ⟨[⟨3, 4⟩], "#222", 2⟩ ∈ st.items →
        CanvasItem.stroke ⟨[⟨3, 4⟩], "#222", 2⟩ ∈ (eraseAtPoint 3 4 st).items) ∧
     (∀ (items : List CanvasItem) (i : Nat), i ∈ clickHitTest 3 4 items →
        items[i]? ≠ some (CanvasItem.stroke ⟨[⟨3, 4⟩], "#222", 2⟩))) :=
  ⟨by decide, short_stroke_never_hit ⟨[⟨3, 4⟩], "#222", 2⟩ 3 4 (by decide)⟩

-- ## Zoom (C1)

theorem onWheelZoom_scale (st : EditorState) (cx cy dy : ℚ) :
    (onWheelZoom cx cy dy st).scale =
      max (1 / 10) (min 4 (st.scale * (if -dy > 0 then 11 / 10 else 9 / 10))) := rfl

/-- C1 counterexample: the zoom-out factor in the code is 0.9, not 0.909, so
zooming in twice and out twice at the fixed screen point (0, 0) from the
initial state (scale 1) leaves the scale at 0.9801 = 1.1 * 1.1 * 0.9 * 0.9,
which is not the original 1 and differs from it by more than one percent --
far beyond floating-point tolerance. -/
theorem zoom_roundtrip_counterexample :
    (onWheelZoom 0 0 1 (onWheelZoom 0 0 1 (onWheelZoom 0 0 (-1)
      (onWheelZoom 0 0 (-1) initState)))).scale = 9801 / 10000 ∧
    ((9801 : ℚ) / 10000 ≠ 1) ∧
    ((1 : ℚ) - 9801 / 10000 > 1 / 100) := by
  refine ⟨?_, by norm_num, by norm_num⟩
  rw [onWheelZoom_scale, onWheelZoom_scale, onWheelZoom_scale, onWheelZoom_scale]
  norm_num [initState, min_def, max_def]

/-- C1 amended: the cursor-anchored zoom keeps the screen-to-world mapping of
the anchored screen point invariant at every step and keeps the scale
positive, but the zoom-out factor is 0.9 (not 0.909), so zooming in twice and
out twice from scale 1 yields scale 0.9801, not the original value. -/
theorem zoom_anchor_invariant (st : EditorState) (cx cy dy : ℚ) :
    0 < (onWheelZoom cx cy dy st).scale ∧
    toCanvasPoint (onWheelZoom cx cy dy st) cx cy = toCanvasPoint st cx cy ∧
    (st.scale = 1 →
      (onWheelZoom cx cy 1 (onWheelZoom cx cy 1 (onWheelZoom cx cy (-1)
        (onWheelZoom cx cy (-1) st)))).scale = 9801 / 10000) := by
  have hpos : 0 < (onWheelZoom cx cy dy st).scale := by
    rw [onWheelZoom_scale]
    exact lt_of_lt_of_le (by norm_num) (le_max_left _ _)
  refine ⟨hpos, ?_, ?_⟩
  · set z := onWheelZoom cx cy dy st with hz
    have hzs : z.scale ≠ 0 := ne_of_gt hpos
    have hzoff : z.offset = (cx - (cx - st.offset.1) / st.scale * z.scale,
                             cy - (cy - st.offset.2) / st.scale * z.scale) := rfl
    show ((cx - z.offset.1) / z.scale, (cy - z.offset.2) / z.scale) =
         ((cx - st.offset.1) / st.scale, (cy - st.offset.2) / st.scale)
    rw [hzoff]
    set w1 := (cx - st.offset.1) / st.scale
    set w2 := (cy - st.offset.2) / st.scale
    simp only [Prod.mk.injEq]
    constructor
    · field_simp
    · field_simp
  · intro h1
    rw [onWheelZoom_scale, onWheelZoom_scale, onWheelZoom_scale, onWheelZoom_scale]
    norm_num [h1, min_def, max_def]

/-- Witness for C1 (amended) at the initial state and screen point (5, 7). -/
theorem zoom_anchor_invariant_witness :
    initState.scale = 1 ∧
    (onWheelZoom 5 7 1 (onWheelZoom 5 7 1 (onWheelZoom 5 7 (-1)
      (onWheelZoom 5 7 (-1) initState)))).scale = 9801 / 10000 :=
  ⟨rfl, (zoom_anchor_invariant initState 5 7 3).2.2 rfl⟩

-- ## Tool switching (C8)

/-- C8 counterexample: with the pen tool active and a stroke in progress,
switching to the erase tool commits nothing and pushes no history -- the
scene stays empty and the in-progress reference keeps the stroke -- whereas
finalizing first (as the claim states) would have committed the stroke and
pushed one history snapshot. -/
theorem tool_switch_no_finalize_counterexample :
    ({ initState with
        drawing := some ⟨[⟨0, 0⟩, ⟨1, 1⟩], "#222", 2⟩ } : EditorState).tool = Tool.pen ∧
    ({ initState with
        drawing := some ⟨[⟨0, 0⟩, ⟨1, 1⟩], "#222", 2⟩ } : EditorState).drawing =
      some ⟨[⟨0, 0⟩, ⟨1, 1⟩], "#222", 2⟩ ∧
    (setTool Tool.erase
      { initState with drawing := some ⟨[⟨0, 0⟩, ⟨1, 1⟩], "#222", 2⟩ }).items = [] ∧
    (setTool Tool.erase
      { initState with drawing := some ⟨[⟨0, 0⟩, ⟨1, 1⟩], "#222", 2⟩ }).undoStack = [] ∧
    (setTool Tool.erase
      { initState with drawing := some ⟨[⟨0, 0⟩, ⟨1, 1⟩], "#222", 2⟩ }).drawing =
      some ⟨[⟨0, 0⟩, ⟨1, 1⟩], "#222", 2⟩ ∧
    (finalizeStroke
      { initState with drawing := some ⟨[⟨0, 0⟩, ⟨1, 1⟩], "#222", 2⟩ }).items =
      [CanvasItem.stroke ⟨[⟨0, 0⟩, ⟨1, 1⟩], "#222", 2⟩] ∧
    (finalizeStroke
      { initState with drawing := some ⟨[⟨0, 0⟩, ⟨1, 1⟩], "#222", 2⟩ }).undoStack = [[]] :=
  ⟨rfl, rfl, rfl, rfl, rfl, rfl, rfl⟩

/-- C8 amended: switching tools neither finalizes nor discards an in-progress
stroke: a tool switch leaves the scene, both history stacks and the
in-progress stroke reference unchanged (it only changes the tool and, when
leaving the select tool, clears the selection and marquee state); the pending
stroke can only be committed by a later finalizeStroke while the pen tool is
active. -/
theorem tool_switch_preserves_scene (t : Tool) (st : EditorState) :
    (setTool t st).items = st.items ∧
    (setTool t st).undoStack = st.undoStack ∧
    (setTool t st).redoStack = st.redoStack ∧
    (setTool t st).drawing = st.drawing ∧
    (setTool t st).tool = t := by
  unfold setTool
  split <;> simp

-- ## Marquee drag threshold (C9)

/-- C9 counterexample: at scale 2 with anchor at world (0, 0) (screen (0, 0))
a pointer move to screen (6, 0) -- a screen displacement of 6 > 4 units --
does not begin showing the marquee (the world displacement 3 is below the
threshold, which the code applies to world coordinates), yet the live
selection is already recomputed from the anchor-cursor rectangle and selects
the stroke, so the rectangle is used before the claimed threshold. -/
theorem marquee_threshold_counterexample :
    (onPointerMove 6 0
      { initState with
        scale := 2, pointerDown := true, tool := Tool.select,
        selectionStart := some (0, 0),
        items := [CanvasItem.stroke ⟨[⟨0, 0⟩, ⟨1, 0⟩], "#222", 2⟩] }).selectionRect = none ∧
    (onPointerMove 6 0
      { initState with
        scale := 2, pointerDown := true, tool := Tool.select,
        selectionStart := some (0, 0),
        items := [CanvasItem.stroke ⟨[⟨0, 0⟩, ⟨1, 0⟩], "#222", 2⟩] }).selectionDragging =
      false ∧
    (onPointerMove 6 0
      { initState with
        scale := 2, pointerDown := true, tool := Tool.select,
        selectionStart := some (0, 0),
        items := [CanvasItem.stroke ⟨[⟨0, 0⟩, ⟨1, 0⟩], "#222", 2⟩] }).selectedIdx = [0] ∧
    ((6 : ℚ) - 0) * ((6 : ℚ) - 0) > 4 * 4 := by
  norm_num [onPointerMove, toCanvasPoint, selectedIndices, marqueeSelects, strokeBounds,
    initState, List.enum, List.filter, consecPairs]
  rw [if_neg (by decide : ¬ (Tool.select = Tool.pen))]
  simp

/-- C9 amended: during a select-tool drag the marquee rectangle only begins
to be shown (and the dragging flag set) once the WORLD-space displacement
from the anchor exceeds 4 units -- equivalently once the screen displacement
exceeds 4 times the scale, as the last conjunct states -- while the live
selection is recomputed from the anchor-cursor rectangle by the
containment/intersection test on every pointer move of the drag, including
before the threshold is crossed. -/
theorem marquee_threshold_world_units (st : EditorState) (cssX cssY sx sy : ℚ)
    (hpan : st.panning = false) (hpd : st.pointerDown = true)
    (ht : st.tool = Tool.select) (hss : st.selectionStart = some (sx, sy))
    (hsc : st.scale ≠ 0) :
    (onPointerMove cssX cssY st).selectedIdx =
      selectedIndices (min sx ((cssX - st.offset.1) / st.scale))
        (min sy ((cssY - st.offset.2) / st.scale))
        |(cssX - st.offset.1) / st.scale - sx| |(cssY - st.offset.2) / st.scale - sy|
        st.items ∧
    ((onPointerMove cssX cssY st).selectionRect =
      if ((cssX - st.offset.1) / st.scale - sx) * ((cssX - st.offset.1) / st.scale - sx) +
         ((cssY - st.offset.2) / st.scale - sy) * ((cssY - st.offset.2) / st.scale - sy) > 16
      then some { x := min sx ((cssX - st.offset.1) / st.scale),
                  y := min sy ((cssY - st.offset.2) / st.scale),
                  w := |(cssX - st.offset.1) / st.scale - sx|,
                  h := |(cssY - st.offset.2) / st.scale - sy| }
      else st.selectionRect) ∧
    ((onPointerMove cssX cssY st).selectionDragging =
      if ((cssX - st.offset.1) / st.scale - sx) * ((cssX - st.offset.1) / st.scale - sx) +
         ((cssY - st.offset.2) / st.scale - sy) * ((cssY - st.offset.2) / st.scale - sy) > 16
      then true else st.selectionDragging) ∧
    (((cssX - st.offset.1) / st.scale - sx) * ((cssX - st.offset.1) / st.scale - sx) +
       ((cssY - st.offset.2) / st.scale - sy) * ((cssY - st.offset.2) / st.scale - sy)) *
        (st.scale * st.scale) =
      (cssX - (sx * st.scale + st.offset.1)) * (cssX - (sx * st.scale + st.offset.1)) +
      (cssY - (sy * st.scale + st.offset.2)) * (cssY - (sy * st.scale + st.offset.2)) := by
  have hmove : onPointerMove cssX cssY st =
      (let p := toCanvasPoint st cssX cssY
       let rx := min sx p.1
       let ry := min sy p.2
       let rw := |p.1 - sx|
       let rh := |p.2 - sy|
       let movedSq := (p.1 - sx) * (p.1 - sx) + (p.2 - sy) * (p.2 - sy)
       let st1 :=
         if movedSq > 16 then
           { st with selectionDragging := true
                     selectionRect := some { x := rx, y := ry, w := rw, h := rh } }
         else st
       { st1 with selectedIdx := selectedIndices rx ry rw rh st.items }) := by
    unfold onPointerMove
    rw [hpan, hpd, ht, hss]
    simp only [Bool.not_true, if_neg (by decide : ¬ (false = true))]
    rw [if_neg (by decide : ¬ (Tool.select = Tool.pen))]
    simp only [if_true]
  rw [hmove]
  simp only [toCanvasPoint]
  refine ⟨?_, ?_, ?_, ?_⟩
  · trivial
  · split <;> rfl
  · split <;> rfl
  · field_simp
    ring

/-- Witness for C9 (amended): the concrete drag state of the counterexample,
hypotheses discharged; live selection is the marquee filter of the tiny
rectangle. -/
theorem marquee_threshold_world_units_witness :
    (onPointerMove 6 0
      { initState with
        scale := 2, pointerDown := true, tool := Tool.select,
        selectionStart := some (0, 0),
        items := [CanvasItem.stroke ⟨[⟨0, 0⟩, ⟨1, 0⟩], "#222", 2⟩] }).selectedIdx =
      selectedIndices (min 0 ((6 - 0) / 2)) (min 0 ((0 - 0) / 2))
        |(6 - 0) / 2 - 0| |(0 - 0) / 2 - 0|
        ({ initState with
          scale := 2, pointerDown := true, tool := Tool.select,
          selectionStart := some (0, 0),
          items := [CanvasItem.stroke ⟨[⟨0, 0⟩, ⟨1, 0⟩], "#222", 2⟩] } : EditorState).items :=
  (marquee_threshold_world_units
    { initState with
      scale := 2, pointerDown := true, tool := Tool.select,
      selectionStart := some (0, 0),
      items := [CanvasItem.stroke ⟨[⟨0, 0⟩, ⟨1, 0⟩], "#222", 2⟩] }
    6 0 0 0 rfl rfl rfl rfl (by norm_num)).1

-- ## Export bounds (C7)

theorem foldl_itemBoundsFold_eq (items : List CanvasItem) (acc : Option (ℚ × ℚ × ℚ × ℚ)) :
    items.foldl itemBoundsFold acc = (boundsContribs items).foldl contribStep acc := by
  induction items generalizing acc with
  | nil => rfl
  | cons it items ih =>
      rw [List.foldl_cons]
      have hcontribs : boundsContribs (it :: items) =
          boundsContribs [it] ++ boundsContribs items := by
        simp [boundsContribs]
      rw [hcontribs, List.foldl_append, ih]
      have hstep : itemBoundsFold acc it = (boundsContribs [it]).foldl contribStep acc := by
        cases it with
        | stroke s =>
            by_cases hp : s.points = []
            · simp [itemBoundsFold, boundsContribs, hp]
            · simp [itemBoundsFold, boundsContribs, hp, List.foldl_map, contribStep]
        | text tb => simp [itemBoundsFold, boundsContribs, contribStep]
      rw [hstep]

theorem foldl_contribStep_mono (cs : List (ℚ × ℚ × ℚ × ℚ)) (a1 : ℚ × ℚ × ℚ × ℚ) :
    ∃ a, cs.foldl contribStep (some a1) = some a ∧
      a.1 ≤ a1.1 ∧ a.2.1 ≤ a1.2.1 ∧ a1.2.2.1 ≤ a.2.2.1 ∧ a1.2.2.2 ≤ a.2.2.2 := by
  induction cs generalizing a1 with
  | nil => exact ⟨a1, rfl, le_refl _, le_refl _, le_refl _, le_refl _⟩
  | cons c cs ih =>
      obtain ⟨a, ha, h1, h2, h3, h4⟩ :=
        ih (min a1.1 c.1, min a1.2.1 c.2.1, max a1.2.2.1 c.2.2.1, max a1.2.2.2 c.2.2.2)
      refine ⟨a, ?_, ?_, ?_, ?_, ?_⟩
      · simpa [contribStep, updateBounds] using ha
      · exact le_trans h1 (min_le_left _ _)
      · exact le_trans h2 (min_le_left _ _)
      · exact le_trans (le_max_left _ _) h3
      · exact le_trans (le_max_left _ _) h4

theorem foldl_contribStep_covers (c : ℚ × ℚ × ℚ × ℚ) (cs : List (ℚ × ℚ × ℚ × ℚ)) :
    ∀ (acc : Option (ℚ × ℚ × ℚ × ℚ)) (a : ℚ × ℚ × ℚ × ℚ), c ∈ cs →
      cs.foldl contribStep acc = some a →
      a.1 ≤ c.1 ∧ a.2.1 ≤ c.2.1 ∧ c.2.2.1 ≤ a.2.2.1 ∧ c.2.2.2 ≤ a.2.2.2 := by
  induction cs with
  | nil => intro acc a hc; cases hc
  | cons c0 cs ih =>
      intro acc a hc ha
      rw [List.foldl_cons] at ha
      rcases List.mem_cons.mp hc with rfl | hmem
      · have hcov1 : ∃ a1, contribStep acc c = some a1 ∧
            a1.1 ≤ c.1 ∧ a1.2.1 ≤ c.2.1 ∧ c.2.2.1 ≤ a1.2.2.1 ∧ c.2.2.2 ≤ a1.2.2.2 := by
          cases acc with
          | none =>
              exact ⟨(c.1, c.2.1, c.2.2.1, c.2.2.2), rfl,
                le_refl _, le_refl _, le_refl _, le_refl _⟩
          | some a0 =>
              exact ⟨_, rfl, min_le_right _ _, min_le_right _ _,
                le_max_right _ _, le_max_right _ _⟩
        obtain ⟨a1, ha1, hb1, hb2, hb3, hb4⟩ := hcov1
        rw [ha1] at ha
        obtain ⟨a2, ha2, hm1, hm2, hm3, hm4⟩ := foldl_contribStep_mono cs a1
        rw [ha] at ha2
        injection ha2 with ha2
        subst ha2
        exact ⟨le_trans hm1 hb1, le_trans hm2 hb2,
          le_trans hb3 hm3, le_trans hb4 hm4⟩
      · exact ih (contribStep acc c0) a hmem ha

/-- C7 counterexample: for the stroke from (24.5, 24.5) to (25.5, 25.5) the
code returns the rectangle (0, 0, 49, 49): its far edge 0 + 49 lies strictly
inside maxX + 24 = 49.5, so the result is NOT the margin-expanded box rounded
outward -- outward rounding (floor of min - 24, ceiling of max + 24) would
give width 50, not 49, because the width is computed as the ceiling of the
expanded extent, not from the ceiling of the expanded max. -/
theorem contentBounds_outward_rounding_counterexample :
    computeContentBounds [CanvasItem.stroke ⟨[⟨49/2, 49/2⟩, ⟨51/2, 51/2⟩], "#222", 2⟩] =
      ⟨0, 0, 49, 49⟩ ∧
    ((0 : ℚ) + 49 < 51 / 2 + 24) ∧
    (⌈(51 : ℚ) / 2 + 24⌉ - ⌊(49 : ℚ) / 2 - 24⌋ = 50) := by
  refine ⟨?_, by norm_num, ?_⟩
  · have hfold : ([CanvasItem.stroke ⟨[⟨49/2, 49/2⟩, ⟨51/2, 51/2⟩], "#222", 2⟩] :
        List CanvasItem).foldl itemBoundsFold none = some (49/2, 49/2, 51/2, 51/2) := by
      simp only [List.foldl, itemBoundsFold, updateBounds]
      norm_num [min_def, max_def]
      intro h
      simp at h
    unfold computeContentBounds
    rw [hfold]
    simp only [IRect.mk.injEq]
    refine ⟨?_, ?_, ?_, ?_⟩
    · rw [show (49 : ℚ)/2 - 24 = 1/2 by norm_num, Int.floor_eq_iff]
      norm_num
    · rw [show (49 : ℚ)/2 - 24 = 1/2 by norm_num, Int.floor_eq_iff]
      norm_num
    · rw [show (51 : ℚ)/2 - 49/2 + 24 * 2 = 49 by norm_num]
      norm_num
    · rw [show (51 : ℚ)/2 - 49/2 + 24 * 2 = 49 by norm_num]
      norm_num
  · have h1 : ⌈(51 : ℚ)/2 + 24⌉ = 50 := by
      rw [show (51 : ℚ)/2 + 24 = 99/2 by norm_num, Int.ceil_eq_iff]
      norm_num
    have h2 : ⌊(49 : ℚ)/2 - 24⌋ = 0 := by
      rw [show (49 : ℚ)/2 - 24 = 1/2 by norm_num, Int.floor_eq_iff]
      norm_num
    rw [h1, h2]
    norm_num

/-- C7 amended: computeContentBounds returns the fixed fallback (0, 0, 600,
400) when the scene has no stroke point and no text box; otherwise x and y
are the floor of the content minimum minus the 24-unit margin and w and h the
ceiling of the margin-expanded extent (clamped below by 1), so every stroke
point and text box rectangle is covered with a margin of more than 23 units
on each side (the far edges can fall short of the full rounded-outward 24 by
less than one unit); the specification examples hold: the empty scene gives
(0, 0, 600, 400) and the single stroke (0, 0)-(100, 100) gives
(-24, -24, 148, 148). -/
theorem contentBounds_margin_and_fallback (items : List CanvasItem) :
    (boundsContribs items = [] → computeContentBounds items = ⟨0, 0, 600, 400⟩) ∧
    (∀ c ∈ boundsContribs items,
        ((computeContentBounds items).x : ℚ) + 24 ≤ c.1 ∧
        ((computeContentBounds items).y : ℚ) + 24 ≤ c.2.1 ∧
        c.2.2.1 + 23 <
          ((computeContentBounds items).x : ℚ) + ((computeContentBounds items).w : ℚ) ∧
        c.2.2.2 + 23 <
          ((computeContentBounds items).y : ℚ) + ((computeContentBounds items).h : ℚ)) ∧
    computeContentBounds [] = ⟨0, 0, 600, 400⟩ ∧
    computeContentBounds [CanvasItem.stroke ⟨[⟨0, 0⟩, ⟨100, 100⟩], "#222", 2⟩] =
      ⟨-24, -24, 148, 148⟩ := by
  refine ⟨?_, ?_, rfl, ?_⟩
  · intro hc
    unfold computeContentBounds
    rw [foldl_itemBoundsFold_eq, hc]
    rfl
  · intro c hc
    obtain ⟨a, ha⟩ : ∃ a, items.foldl itemBoundsFold none = some a := by
      rw [foldl_itemBoundsFold_eq]
      cases hcs : boundsContribs items with
      | nil => rw [hcs] at hc; cases hc
      | cons c0 cs =>
          rw [List.foldl_cons]
          have h0 : contribStep none c0 = some (c0.1, c0.2.1, c0.2.2.1, c0.2.2.2) := rfl
          rw [h0]
          obtain ⟨a, ha, _⟩ := foldl_contribStep_mono cs (c0.1, c0.2.1, c0.2.2.1, c0.2.2.2)
          exact ⟨a, ha⟩
    have hcov := foldl_contribStep_covers c (boundsContribs items) none a hc
      (by rw [← foldl_itemBoundsFold_eq]; exact ha)
    obtain ⟨hc1, hc2, hc3, hc4⟩ := hcov
    have hcb : computeContentBounds items =
        { x := ⌊a.1 - 24⌋, y := ⌊a.2.1 - 24⌋,
          w := max 1 ⌈a.2.2.1 - a.1 + 24 * 2⌉, h := max 1 ⌈a.2.2.2 - a.2.1 + 24 * 2⌉ } := by
      unfold computeContentBounds
      rw [ha]
    rw [hcb]
    have hfx1 : (⌊a.1 - 24⌋ : ℚ) ≤ a.1 - 24 := Int.floor_le _
    have hfx2 : a.1 - 24 - 1 < (⌊a.1 - 24⌋ : ℚ) := Int.sub_one_lt_floor _
    have hfy1 : (⌊a.2.1 - 24⌋ : ℚ) ≤ a.2.1 - 24 := Int.floor_le _
    have hfy2 : a.2.1 - 24 - 1 < (⌊a.2.1 - 24⌋ : ℚ) := Int.sub_one_lt_floor _
    have hcw : (a.2.2.1 - a.1 + 24 * 2 : ℚ) ≤ (⌈a.2.2.1 - a.1 + 24 * 2⌉ : ℤ) := Int.le_ceil _
    have hch : (a.2.2.2 - a.2.1 + 24 * 2 : ℚ) ≤ (⌈a.2.2.2 - a.2.1 + 24 * 2⌉ : ℤ) :=
      Int.le_ceil _
    have hmw : ((⌈a.2.2.1 - a.1 + 24 * 2⌉ : ℤ) : ℚ) ≤
        ((max 1 ⌈a.2.2.1 - a.1 + 24 * 2⌉ : ℤ) : ℚ) := by
      exact_mod_cast le_max_right _ _
    have hmh : ((⌈a.2.2.2 - a.2.1 + 24 * 2⌉ : ℤ) : ℚ) ≤
        ((max 1 ⌈a.2.2.2 - a.2.1 + 24 * 2⌉ : ℤ) : ℚ) := by
      exact_mod_cast le_max_right _ _
    refine ⟨?_, ?_, ?_, ?_⟩
    · simp only []
      linarith
    · simp only []
      linarith
    · simp only []
      push_cast
      push_cast at hmw
      linarith
    · simp only []
      push_cast
      push_cast at hmh
      linarith
  · have hfold : ([CanvasItem.stroke ⟨[⟨0, 0⟩, ⟨100, 100⟩], "#222", 2⟩] :
        List CanvasItem).foldl itemBoundsFold none = some (0, 0, 100, 100) := by
      simp only [List.foldl, itemBoundsFold, updateBounds]
      norm_num [min_def, max_def]
      intro h
      simp at h
    unfold computeContentBounds
    rw [hfold]
    simp only [IRect.mk.injEq]
    refine ⟨?_, ?_, ?_, ?_⟩
    · rw [show (0 : ℚ) - 24 = -24 by norm_num]
      norm_num
    · rw [show (0 : ℚ) - 24 = -24 by norm_num]
      norm_num
    · rw [show (100 : ℚ) - 0 + 24 * 2 = 148 by norm_num]
      norm_num
    · rw [show (100 : ℚ) - 0 + 24 * 2 = 148 by norm_num]
      norm_num

/-- Witness for C7 (amended): the contributor (0, 0) of the example stroke is
covered by the computed crop rectangle with margins. -/
theorem contentBounds_margin_and_fallback_witness :
    ((0 : ℚ), (0 : ℚ), (0 : ℚ), (0 : ℚ)) ∈
      boundsContribs [CanvasItem.stroke ⟨[⟨0, 0⟩, ⟨100, 100⟩], "#222", 2⟩] ∧
    (((computeContentBounds
          [CanvasItem.stroke ⟨[⟨0, 0⟩, ⟨100, 100⟩], "#222", 2⟩]).x : ℚ) + 24 ≤ 0 ∧
     ((computeContentBounds
          [CanvasItem.stroke ⟨[⟨0, 0⟩, ⟨100, 100⟩], "#222", 2⟩]).y : ℚ) + 24 ≤ 0 ∧
     (0 : ℚ) + 23 <
       ((computeContentBounds [CanvasItem.stroke ⟨[⟨0, 0⟩, ⟨100, 100⟩], "#222", 2⟩]).x : ℚ) +
       ((computeContentBounds [CanvasItem.stroke ⟨[⟨0, 0⟩, ⟨100, 100⟩], "#222", 2⟩]).w : ℚ) ∧
     (0 : ℚ) + 23 <
       ((computeContentBounds [CanvasItem.stroke ⟨[⟨0, 0⟩, ⟨100, 100⟩], "#222", 2⟩]).y : ℚ) +
       ((computeContentBounds [CanvasItem.stroke ⟨[⟨0, 0⟩, ⟨100, 100⟩], "#222", 2⟩]).h : ℚ)) :=
  ⟨by simp [boundsContribs],
   (contentBounds_margin_and_fallback
      [CanvasItem.stroke ⟨[⟨0, 0⟩, ⟨100, 100⟩], "#222", 2⟩]).2.1
     ((0 : ℚ), (0 : ℚ), (0 : ℚ), (0 : ℚ)) (by simp [boundsContribs])⟩
